import Mathlib

/-!
Shallow embedding of the Expanded Spell Slots module (`src/scripts/main.mjs`),
a Foundry VTT configuration-patching extension.  JavaScript values that may be
booleans, strings, numbers or `undefined` are modelled by `JSVal`; JavaScript
objects that act as integer-keyed maps are modelled by association lists;
the mutable host state touched by `applyExpandedSpellSlots` is an explicit
`HostState` record and a thrown `TypeError` is an `Except.error`.
-/

namespace ExpandedSpellSlots

/-- A JavaScript value as it can appear in a configuration field:
a boolean, a string, an integer number, or `undefined` (absent field). -/
inductive JSVal where
  | vBool : Bool → JSVal
  | vStr : String → JSVal
  | vNum : Int → JSVal
  | vUndef : JSVal
deriving DecidableEq, Repr

/-- Leading decimal digits of a character list, as a number;
`none` when the first character is not a digit (JS `parseInt` → `NaN`). -/
def leadingDigits (cs : List Char) : Option Nat :=
  let ds := cs.takeWhile Char.isDigit
  if ds.isEmpty then none
  else some (ds.foldl (fun acc c => 10 * acc + (c.toNat - '0'.toNat)) 0)

/-- JS `parseInt` on a string: skip leading whitespace, optional sign,
then leading decimal digits; `none` models `NaN`. -/
def parseIntStr (s : String) : Option Int :=
  match s.data.dropWhile Char.isWhitespace with
  | '-' :: rest => (leadingDigits rest).map (fun n => -(n : Int))
  | '+' :: rest => (leadingDigits rest).map (fun n => (n : Int))
  | cs => (leadingDigits cs).map (fun n => (n : Int))

/-- JS `parseInt` on a `JSVal`.  A number is stringified and reparsed, which
for an integer is the identity; `parseInt` of `true`/`false`/`undefined`
is `NaN` (`none`). -/
def jsParseInt : JSVal → Option Int
  | JSVal.vNum n => some n
  | JSVal.vStr s => parseIntStr s
  | JSVal.vBool _ => none
  | JSVal.vUndef => none

/-- The JS idiom `parseInt(x) || d`: `NaN` and `0` are both falsy, so the
default `d` replaces not only an unparsable value but also a parsed `0`. -/
def parseIntOr (v : JSVal) (d : Int) : Int :=
  match jsParseInt v with
  | some n => if n = 0 then d else n
  | none => d

/-- One entry of `config.levels` (`LevelRule` in the spec).  Fields keep the
loosely-typed values they can arrive with from persisted JSON or a form. -/
structure LevelRule where
  enabled : JSVal
  characterLevel : JSVal
  slots : JSVal
deriving DecidableEq, Repr

/-- `levels` object: integer tier → rule.  JS object keys are strings, and
numeric keys coerce to the same string, so the double lookup
`levels?.[t] || levels?.[String(t)]` in the source is a single lookup here. -/
abbrev LevelsMap : Type := List (Nat × LevelRule)

/-- `config.levels?.[spellLevel] || config.levels?.[String(spellLevel)]`:
lookup of an (always nonnegative in the source loops) tier key. -/
def lookupLevel (m : LevelsMap) (t : Nat) : Option LevelRule :=
  List.lookup t m

/-- The effective (merged) configuration used everywhere. -/
structure Config where
  maxSpellLevel : Int
  levels : LevelsMap
deriving DecidableEq, Repr

/-- `DEFAULT_CONFIG` from `main.mjs` lines 9-17. -/
def defaultLevels : LevelsMap :=
  [ (10, { enabled := JSVal.vBool true, characterLevel := JSVal.vNum 19, slots := JSVal.vNum 1 }),
    (11, { enabled := JSVal.vBool true, characterLevel := JSVal.vNum 20, slots := JSVal.vNum 1 }),
    (12, { enabled := JSVal.vBool true, characterLevel := JSVal.vNum 20, slots := JSVal.vNum 1 }) ]

def DEFAULT_CONFIG : Config :=
  { maxSpellLevel := 12, levels := defaultLevels }

/-- What `game.settings.get(MODULE_ID, "config")` returns: a JSON-like object
whose top-level keys may each be present or absent. -/
structure StoredConfig where
  maxSpellLevel : Option Int
  levels : Option LevelsMap
deriving DecidableEq, Repr

/-- The stored value on a fresh install: the settings subsystem returns the
registered default, `DEFAULT_CONFIG`, with both top-level keys present. -/
def freshStored : StoredConfig :=
  { maxSpellLevel := some 12, levels := some defaultLevels }

/-- `getConfig` (`main.mjs` lines 50-57): shallow merge
`{ ...DEFAULT_CONFIG, ...config }` — a present persisted key wins wholesale at
the top level.  `none` models `game.settings.get` throwing, in which case the
`catch` returns `DEFAULT_CONFIG`. -/
def getConfig (stored : Option StoredConfig) : Config :=
  match stored with
  | none => DEFAULT_CONFIG
  | some st =>
      { maxSpellLevel := st.maxSpellLevel.getD DEFAULT_CONFIG.maxSpellLevel,
        levels := st.levels.getD DEFAULT_CONFIG.levels }

/-- JS array indexing `a[i]` with a possibly negative index: `undefined`
(`none`) out of bounds.  A JS `-0` index reads `a[0]`; `Int` has no `-0`,
and JS truncated remainder yields exactly `0` there, so this agrees. -/
def jsIndex (a : List String) (i : Int) : Option String :=
  if h : 0 ≤ i ∧ i.toNat < a.length then some (a.get ⟨i.toNat, h.2⟩) else none

/-- `getOrdinalSuffix` (`main.mjs` lines 62-66):
`const s = ["th","st","nd","rd"]; const v = n % 100;
return n + (s[(v - 20) % 10] || s[v] || s[0]);`.
JS `%` is the truncated remainder, `Int.tmod`; `s[negative]` is `undefined`,
and `undefined || x` falls through to `x`. -/
def getOrdinalSuffix (n : Nat) : String :=
  let s : List String := ["th", "st", "nd", "rd"]
  let v : Int := (n : Int) % 100
  n.repr ++ (((jsIndex s (Int.tmod (v - 20) 10)).orElse
      (fun _ => jsIndex s v)).getD "th")

/-- A label table (`CONFIG.DND5E.spellLevels`, or the localization namespace
`...SPELLCASTING.SLOTS` whose key `spell${n}` is identified with `n`),
modelled as an association list: JS object key order is unobserved, only
lookups and key presence matter. -/
abbrev LabelMap : Type := List (Nat × String)

/-- JS `delete obj[k]`. -/
def deleteKey (m : LabelMap) (k : Nat) : LabelMap :=
  m.filter (fun p => p.1 ≠ k)

/-- JS `obj[k] = v`: replace in place when the key exists, append otherwise. -/
def setKey (m : LabelMap) (k : Nat) (v : String) : LabelMap :=
  if m.any (fun p => p.1 = k) then m.map (fun p => if p.1 = k then (k, v) else p)
  else m ++ [(k, v)]

/-- `main.mjs` lines 140-145: `for (let level = 10; level <= 99; level++)
delete CONFIG.DND5E.spellLevels[level]` — purge tiers 10..99. -/
def purgeExpandedLabels (m : LabelMap) : LabelMap :=
  (List.range' 10 90).foldl (fun acc k => deleteKey acc k) m

/-- The tiers `10 .. maxLevel` that the source loops
`for (let level = 10; level <= maxLevel; level++)` iterate over. -/
def tierRange (maxLevel : Int) : List Nat :=
  List.range' 10 (maxLevel - 9).toNat

/-- The installed label for a tier: `` `${getOrdinalSuffix(level)} Level` ``. -/
def ordinalLabel (n : Nat) : String :=
  getOrdinalSuffix n ++ " Level"

/-- `main.mjs` lines 148-158: install labels for tiers `10 .. maxLevel`. -/
def installLabels (maxLevel : Int) (m : LabelMap) : LabelMap :=
  (tierRange maxLevel).foldl (fun acc k => setKey acc k (ordinalLabel k)) m

/-- `updateSpellLevelsConfig` (`main.mjs` lines 131-159) acting on the
`spellLevels` table and on the localization SLOTS table.  The latter is
`none` when `game.i18n?.translations` is absent, in which case every
localization delete/set is skipped by the guards on lines 142 and 155;
the two maps are updated independently by the same two loops. -/
def updateSpellLevelsConfig (maxLevel : Int) (spellLevels : LabelMap)
    (slotLabels : Option LabelMap) : LabelMap × Option LabelMap :=
  (installLabels maxLevel (purgeExpandedLabels spellLevels),
   slotLabels.map (fun m => installLabels maxLevel (purgeExpandedLabels m)))

/-- `main.mjs` lines 95-98 (also line 199 in `getData`):
`enabled === true || enabled === "true"`. -/
def isEnabledPatch (v : JSVal) : Bool :=
  v == JSVal.vBool true || v == JSVal.vStr "true"

/-- `main.mjs` line 279 in `_updateObject`:
`enabledValue === true || enabledValue === "on" || enabledValue === "true"`. -/
def isEnabledForm (v : JSVal) : Bool :=
  v == JSVal.vBool true || v == JSVal.vStr "on" || v == JSVal.vStr "true"

/-- `main.mjs` lines 109-113: grow the row with zero cells until it has
`col + 1` entries, then write `v` at index `col`. -/
def setCell (row : List Int) (col : Nat) (v : Int) : List Int :=
  (row ++ List.replicate (col + 1 - row.length) 0).set col v

/-- `main.mjs` lines 104-115, body for one character level: compute
`rowIndex = charLevel - 1` and write only when
`CONFIG.DND5E.SPELL_SLOT_TABLE[rowIndex]` is an existing row (a negative or
out-of-range index reads `undefined`, which is falsy, so the level is
skipped). -/
def patchRow (table : List (List Int)) (charLevel : Int) (col : Nat)
    (v : Int) : List (List Int) :=
  if h : 0 ≤ charLevel - 1 ∧ (charLevel - 1).toNat < table.length then
    table.set (charLevel - 1).toNat
      (setCell (table.get ⟨(charLevel - 1).toNat, h.2⟩) col v)
  else table

/-- The character levels `requiredCharLevel .. 20` iterated by
`for (let charLevel = requiredCharLevel; charLevel <= 20; charLevel++)`;
`requiredCharLevel` comes from `parseInt` and may be any integer. -/
def charLevelRange (req : Int) : List Int :=
  (List.range (21 - req).toNat).map (fun (k : Nat) => req + (k : Int))

/-- `main.mjs` lines 91-116, body for one spell level of the tier loop
(callers pass `spellLevel ≥ 10`).  An absent rule gives
`levelConfig?.enabled === undefined`, hence disabled. -/
def applyTier (cfg : Config) (table : List (List Int)) (spellLevel : Nat) :
    List (List Int) :=
  match lookupLevel cfg.levels spellLevel with
  | none => table
  | some levelConfig =>
    if isEnabledPatch levelConfig.enabled then
      let requiredCharLevel := parseIntOr levelConfig.characterLevel 20
      let slotsToGrant := parseIntOr levelConfig.slots 1
      (charLevelRange requiredCharLevel).foldl
        (fun t c => patchRow t c (spellLevel - 1) slotsToGrant) table
    else table

/-- The whole tier loop of `applyExpandedSpellSlots`
(`main.mjs` lines 91-116), as a function of the table it starts from. -/
def patchTable (cfg : Config) (table : List (List Int)) : List (List Int) :=
  (tierRange cfg.maxSpellLevel).foldl (applyTier cfg) table

/-- The host state read and written by `applyExpandedSpellSlots`. -/
structure HostState where
  /-- `CONFIG.DND5E.SPELL_SLOT_TABLE`; `none` models `null`/`undefined`. -/
  table : Option (List (List Int))
  /-- module-level `originalSpellSlotTable`, initially `null`. -/
  snapshot : Option (List (List Int))
  /-- `CONFIG.DND5E.spellLevels`. -/
  spellLevels : LabelMap
  /-- localization SLOTS table; `none` when `game.i18n?.translations` absent. -/
  slotLabels : Option LabelMap
  /-- whether `CONFIG.DND5E.spellcasting?.spell?.updateSource` exists. -/
  hasUpdateSource : Bool
  /-- the spellcasting data model's own cached copy of the table. -/
  cachedTable : Option (List (List Int))
deriving DecidableEq

/-- Steps 2-5 of `applyExpandedSpellSlots` once the pristine snapshot is in
hand: reset the live table to a copy of the snapshot (line 82), update the
labels (line 85), run the tier loop (lines 91-116), and push the new table
through `updateSource` when that handle exists (lines 121-123). -/
def applyCore (cfg : Config) (s : HostState) (snapshot : List (List Int)) :
    HostState :=
  let labels := updateSpellLevelsConfig cfg.maxSpellLevel s.spellLevels s.slotLabels
  let newTable := patchTable cfg snapshot
  { table := some newTable,
    snapshot := some snapshot,
    spellLevels := labels.1,
    slotLabels := labels.2,
    hasUpdateSource := s.hasUpdateSource,
    cachedTable := if s.hasUpdateSource then some newTable else s.cachedTable }

/-- `applyExpandedSpellSlots` (`main.mjs` lines 72-126) for a given effective
configuration.  Line 78 calls `.map` on `CONFIG.DND5E.SPELL_SLOT_TABLE`
without a guard, so when the snapshot has not been captured yet and the
table is `null`/absent this throws a `TypeError` (`Except.error`). -/
def applyExpandedSpellSlots (cfg : Config) (s : HostState) :
    Except Unit HostState :=
  match s.snapshot with
  | some sn => Except.ok (applyCore cfg s sn)
  | none =>
    match s.table with
    | some t => Except.ok (applyCore cfg s t)
    | none => Except.error ()

/-- `_addLevel` (`main.mjs` lines 234-243) acting on the merged config it
reads: bump `maxSpellLevel` and insert a fresh default-enabled rule. -/
def addLevel (cfg : Config) : Config :=
  let newLevel := cfg.maxSpellLevel + 1
  { maxSpellLevel := newLevel,
    levels := cfg.levels ++
      [(newLevel.toNat,
        { enabled := JSVal.vBool true, characterLevel := JSVal.vNum 20,
          slots := JSVal.vNum 1 })] }

/-- `_removeLevel` (`main.mjs` lines 245-260) acting on the merged config it
reads: return unchanged (no save happens) when `level <= 10`; otherwise
delete the rule for `level` and decrement `maxSpellLevel` exactly when
`level === maxSpellLevel`. -/
def removeLevel (cfg : Config) (level : Int) : Config :=
  if level ≤ 10 then cfg
  else
    let levels := cfg.levels.filter (fun p => (p.1 : Int) ≠ level)
    if level = cfg.maxSpellLevel then
      { maxSpellLevel := level - 1, levels := levels }
    else
      { maxSpellLevel := cfg.maxSpellLevel, levels := levels }

/-- The three form fields submitted for each tier
(`levels.${level}.enabled` / `.characterLevel` / `.slots`). -/
structure FormData where
  enabled : Nat → JSVal
  characterLevel : Nat → JSVal
  slots : Nat → JSVal

/-- `_updateObject` (`main.mjs` lines 262-296): rebuild the configuration
from the form, keeping `maxSpellLevel` and creating one normalized rule for
every tier `10 .. maxSpellLevel`. -/
def updateObjectConfig (cfg : Config) (fd : FormData) : Config :=
  { maxSpellLevel := cfg.maxSpellLevel,
    levels := (tierRange cfg.maxSpellLevel).map (fun level =>
      (level,
       { enabled := JSVal.vBool (isEnabledForm (fd.enabled level)),
         characterLevel := JSVal.vNum (parseIntOr (fd.characterLevel level) 20),
         slots := JSVal.vNum (parseIntOr (fd.slots level) 1) })) }

/-- One row of the settings form as built by `getData`
(`main.mjs` lines 187-215). -/
structure DisplayRow where
  level : Nat
  label : String
  enabled : Bool
  characterLevel : Int
  slots : Int
deriving DecidableEq, Repr

/-- `getData` (`main.mjs` lines 187-215): rows for tiers
`10 .. max(maxSpellLevel, 10)`, falling back to
`{ enabled: false, characterLevel: 20, slots: 1 }` for an absent rule. -/
def getDataRows (cfg : Config) : List DisplayRow :=
  let maxToShow := max cfg.maxSpellLevel 10
  (tierRange maxToShow).map (fun level =>
    let levelConfig := (lookupLevel cfg.levels level).getD
      { enabled := JSVal.vBool false, characterLevel := JSVal.vNum 20,
        slots := JSVal.vNum 1 }
    { level := level,
      label := ordinalLabel level,
      enabled := isEnabledPatch levelConfig.enabled,
      characterLevel := parseIntOr levelConfig.characterLevel 20,
      slots := parseIntOr levelConfig.slots 1 })

/-- Cell `(characterLevel i+1, spellTier j+1)` of a slot table:
`table[i][j]`, `none` when the row or the cell is absent. -/
def getCell (t : List (List Int)) (i j : Nat) : Option Int :=
  t[i]?.bind (fun row => row[j]?)

/-- How one cell may change under a patch step that does not write it:
either it is untouched, or it was absent and zero-padding created it as 0. -/
def cellR (a b : Option Int) : Prop :=
  b = a ∨ (a = none ∧ b = some 0)

/-- Whether the tier-`spellLevel` pass of the patch loop writes cell `(i, j)`:
the tier has a rule, the rule is enabled, `j` is the tier's column, and
character level `i + 1` lies in `[requiredCharLevel, 20]`. -/
def tierWritesB (cfg : Config) (spellLevel : Nat) (i j : Nat) : Bool :=
  match lookupLevel cfg.levels spellLevel with
  | none => false
  | some rule =>
      isEnabledPatch rule.enabled && j == spellLevel - 1 &&
      decide (parseIntOr rule.characterLevel 20 ≤ (i : Int) + 1) &&
      decide ((i : Int) + 1 ≤ 20)

/-- Whether any tier of the configuration writes cell `(i, j)`. -/
def writesCell (cfg : Config) (i j : Nat) : Bool :=
  (tierRange cfg.maxSpellLevel).any (fun sl => tierWritesB cfg sl i j)

/-- The ordinal suffix as a function of `v = n % 100` only
(the shape of the body of `getOrdinalSuffix`). -/
def suffixOfResidue (v : Nat) : String :=
  ((jsIndex ["th", "st", "nd", "rd"] (Int.tmod ((v : Int) - 20) 10)).orElse
    (fun _ => jsIndex ["th", "st", "nd", "rd"] (v : Int))).getD "th"

/-- Modelled from the spec: the ordinal suffix rule exactly as the claim
states it — `"st"`/`"nd"`/`"rd"` for last digit 1/2/3, `"th"` otherwise,
with the whole band `n % 100 ∈ [11, 13]` forced to `"th"`. -/
def specOrdinalSuffix (n : Nat) : String :=
  if 11 ≤ n % 100 ∧ n % 100 ≤ 13 then "th"
  else if n % 10 = 1 then "st"
  else if n % 10 = 2 then "nd"
  else if n % 10 = 3 then "rd"
  else "th"

/-- A minimal host state for concrete evaluations: empty live table, no
snapshot yet, no labels, no i18n, no `updateSource` handle. -/
def emptyHost : HostState :=
  { table := some [], snapshot := none, spellLevels := [], slotLabels := none,
    hasUpdateSource := false, cachedTable := none }

/-- The host state on a very first boot where `CONFIG.DND5E.SPELL_SLOT_TABLE`
has not been initialized: no live table and no snapshot. -/
def uninitHost : HostState :=
  { table := none, snapshot := none, spellLevels := [], slotLabels := none,
    hasUpdateSource := false, cachedTable := none }

/-- The state `applyExpandedSpellSlots DEFAULT_CONFIG` produces from
`emptyHost` (the empty table has no rows, so no cell is written). -/
def emptyHostApplied : HostState :=
  { table := some [], snapshot := some [],
    spellLevels := [(10, "10th Level"), (11, "11th Level"), (12, "12th Level")],
    slotLabels := none, hasUpdateSource := false, cachedTable := none }

/-- The standard 20-row 5e slot table (rows = character levels 1..20,
columns = spell levels 1..9), used as a concrete pristine table. -/
def standardTable : List (List Int) :=
  [ [2], [3], [4, 2], [4, 3], [4, 3, 2],
    [4, 3, 3], [4, 3, 3, 1], [4, 3, 3, 2], [4, 3, 3, 3, 1], [4, 3, 3, 3, 2],
    [4, 3, 3, 3, 2, 1], [4, 3, 3, 3, 2, 1], [4, 3, 3, 3, 2, 1, 1], [4, 3, 3, 3, 2, 1, 1],
    [4, 3, 3, 3, 2, 1, 1, 1], [4, 3, 3, 3, 2, 1, 1, 1], [4, 3, 3, 3, 2, 1, 1, 1, 1],
    [4, 3, 3, 3, 3, 1, 1, 1, 1], [4, 3, 3, 3, 3, 2, 1, 1, 1], [4, 3, 3, 3, 3, 2, 2, 1, 1] ]

/-! ### Helper lemmas -/

theorem cellR_refl (a : Option Int) : cellR a a := Or.inl rfl

theorem cellR_trans {a b c : Option Int} (h₁ : cellR a b) (h₂ : cellR b c) :
    cellR a c := by
  rcases h₁ with h₁ | ⟨ha, hb⟩
  · rcases h₂ with h₂ | ⟨hb, hc⟩
    · exact Or.inl (h₂.trans h₁)
    · exact Or.inr ⟨h₁ ▸ hb, hc⟩
  · rcases h₂ with h₂ | ⟨hb', hc⟩
    · exact Or.inr ⟨ha, h₂.trans hb⟩
    · exact absurd (hb' ▸ hb) (by simp)

theorem cellR_some {a : Int} {b : Option Int} (h : cellR (some a) b) :
    b = some a := by
  rcases h with h | ⟨ha, _⟩
  · exact h
  · exact absurd ha (by simp)

theorem setCell_length (row : List Int) (col : Nat) (v : Int) :
    (setCell row col v).length = max row.length (col + 1) := by
  simp [setCell]
  omega

theorem setCell_getElem?_self (row : List Int) (col : Nat) (v : Int) :
    (setCell row col v)[col]? = some v := by
  unfold setCell
  refine List.getElem?_set_self ?_
  simp
  omega

theorem setCell_getElem?_ne (row : List Int) (col : Nat) (v : Int) {j : Nat}
    (h : j ≠ col) : cellR row[j]? (setCell row col v)[j]? := by
  unfold setCell
  rw [List.getElem?_set_ne (Ne.symm h)]
  by_cases hj : j < row.length
  · rw [List.getElem?_append_left hj]
    exact cellR_refl _
  · push_neg at hj
    rw [List.getElem?_append_right hj, List.getElem?_eq_none hj,
      List.getElem?_replicate]
    split
    · exact Or.inr ⟨rfl, rfl⟩
    · exact cellR_refl _

theorem patchRow_length (table : List (List Int)) (c : Int) (col : Nat)
    (v : Int) : (patchRow table c col v).length = table.length := by
  unfold patchRow
  split <;> simp

theorem patchRow_getElem?_row_ne (table : List (List Int)) (c : Int)
    (col : Nat) (v : Int) (i : Nat) (h : c - 1 ≠ (i : Int)) :
    (patchRow table c col v)[i]? = table[i]? := by
  unfold patchRow
  split
  · next hc =>
      refine List.getElem?_set_ne (fun he => h ?_)
      rw [← he, Int.toNat_of_nonneg hc.1]
  · rfl

theorem patchRow_getCell_row_ne (table : List (List Int)) (c : Int)
    (col : Nat) (v : Int) (i : Nat) (h : c - 1 ≠ (i : Int)) (j : Nat) :
    getCell (patchRow table c col v) i j = getCell table i j := by
  unfold getCell
  rw [patchRow_getElem?_row_ne table c col v i h]

theorem patchRow_getCell_self (table : List (List Int)) (c : Int) (col : Nat)
    (v : Int) (i : Nat) (hc : c = (i : Int) + 1) (hi : i < table.length) :
    getCell (patchRow table c col v) i col = some v := by
  have ht : (c - 1).toNat = i := by omega
  subst ht
  unfold patchRow getCell
  rw [dif_pos ⟨by omega, hi⟩, List.getElem?_set_self hi]
  simp [setCell_getElem?_self]

theorem patchRow_getCell_cellR (table : List (List Int)) (c : Int) (col : Nat)
    (v : Int) (i j : Nat) (h : c - 1 ≠ (i : Int) ∨ j ≠ col) :
    cellR (getCell table i j) (getCell (patchRow table c col v) i j) := by
  rcases h with h | h
  · rw [patchRow_getCell_row_ne table c col v i h]
    exact cellR_refl _
  · unfold patchRow
    split
    · next hc =>
        unfold getCell
        by_cases hrow : (c - 1).toNat = i
        · subst hrow
          rw [List.getElem?_set_self hc.2,
            List.getElem?_eq_getElem hc.2]
          simpa [List.get_eq_getElem] using
            setCell_getElem?_ne (table[(c - 1).toNat]) col v h
        · rw [List.getElem?_set_ne hrow]
          exact cellR_refl _
    · exact cellR_refl _

theorem mem_charLevelRange {req c : Int} :
    c ∈ charLevelRange req ↔ req ≤ c ∧ c ≤ 20 := by
  unfold charLevelRange
  simp only [List.mem_map, List.mem_range]
  constructor
  · rintro ⟨k, hk, rfl⟩
    omega
  · rintro ⟨h1, h2⟩
    exact ⟨(c - req).toNat, by omega, by omega⟩

theorem mem_tierRange {maxLevel : Int} {t : Nat} :
    t ∈ tierRange maxLevel ↔ 10 ≤ t ∧ (t : Int) ≤ maxLevel := by
  unfold tierRange
  rw [List.mem_range'_1]
  omega

theorem foldl_patchRow_length (L : List Int) (col : Nat) (v : Int)
    (t : List (List Int)) :
    (L.foldl (fun t c => patchRow t c col v) t).length = t.length := by
  induction L generalizing t with
  | nil => rfl
  | cons c cs ih => rw [List.foldl_cons, ih, patchRow_length]

theorem foldl_patchRow_cellR (L : List Int) (col : Nat) (v : Int)
    (t : List (List Int)) {i j : Nat}
    (h : ∀ c ∈ L, c - 1 ≠ (i : Int) ∨ j ≠ col) :
    cellR (getCell t i j)
      (getCell (L.foldl (fun t c => patchRow t c col v) t) i j) := by
  induction L generalizing t with
  | nil => exact cellR_refl _
  | cons c cs ih =>
      rw [List.foldl_cons]
      exact cellR_trans (patchRow_getCell_cellR t c col v i j (h c (by simp)))
        (ih _ (fun c' hc' => h c' (by simp [hc'])))

theorem applyTier_length (cfg : Config) (t : List (List Int)) (sl : Nat) :
    (applyTier cfg t sl).length = t.length := by
  cases hlk : lookupLevel cfg.levels sl with
  | none => simp [applyTier, hlk]
  | some rule =>
      by_cases he : isEnabledPatch rule.enabled <;>
        simp [applyTier, hlk, he, foldl_patchRow_length]

theorem applyTier_cellR (cfg : Config) (t : List (List Int)) (sl : Nat)
    {i j : Nat} (h : tierWritesB cfg sl i j = false) :
    cellR (getCell t i j) (getCell (applyTier cfg t sl) i j) := by
  cases hlk : lookupLevel cfg.levels sl with
  | none =>
      simp only [applyTier, hlk]
      exact cellR_refl _
  | some rule =>
      by_cases he : isEnabledPatch rule.enabled
      · simp only [applyTier, hlk, he, if_true]
        simp only [tierWritesB, hlk, he, Bool.true_and, Bool.and_eq_false_iff,
          beq_eq_false_iff_ne, decide_eq_false_iff_not, not_le] at h
        refine foldl_patchRow_cellR _ _ _ _ (fun c hc => ?_)
        rw [mem_charLevelRange] at hc
        by_cases hj : j = sl - 1
        · refine Or.inl (fun hci => ?_)
          rcases h with (h | h) | h
          · exact h hj
          · omega
          · omega
        · exact Or.inr hj
      · simp only [applyTier, hlk, he, if_false]
        exact cellR_refl _

theorem patchTable_length (cfg : Config) (table : List (List Int)) :
    (patchTable cfg table).length = table.length := by
  unfold patchTable
  generalize tierRange cfg.maxSpellLevel = L
  induction L generalizing table with
  | nil => rfl
  | cons sl sls ih => rw [List.foldl_cons, ih, applyTier_length]

theorem patchTable_cellR (cfg : Config) (table : List (List Int)) {i j : Nat}
    (h : writesCell cfg i j = false) :
    cellR (getCell table i j) (getCell (patchTable cfg table) i j) := by
  unfold patchTable
  unfold writesCell at h
  rw [List.any_eq_false] at h
  have key : ∀ (L : List Nat), (∀ sl ∈ L, tierWritesB cfg sl i j = false) →
      ∀ t, cellR (getCell t i j) (getCell (L.foldl (applyTier cfg) t) i j) := by
    intro L
    induction L with
    | nil => exact fun _ t => cellR_refl _
    | cons sl sls ih =>
        intro hL t
        rw [List.foldl_cons]
        exact cellR_trans (applyTier_cellR cfg t sl (hL sl (by simp)))
          (ih (fun s hs => hL s (by simp [hs])) _)
  exact key _ (fun sl hsl => Bool.eq_false_iff.mpr (h sl hsl)) table

theorem lookup_filter_key {α : Type} (l : List (Nat × α)) (f : Nat → Bool)
    (t : Nat) :
    List.lookup t (l.filter (fun p => f p.1)) =
      if f t then List.lookup t l else none := by
  induction l with
  | nil => simp [List.lookup]
  | cons p tl ih =>
      obtain ⟨k, v⟩ := p
      by_cases hk : t = k
      · subst hk
        by_cases hf : f t <;>
          simp [List.filter_cons, List.lookup_cons, hf, ih]
      · have hbeq : (t == k) = false := beq_eq_false_iff_ne.mpr hk
        by_cases hf : f k <;>
          simp [List.filter_cons, List.lookup_cons, hf, hbeq, ih]

theorem lookup_append {α : Type} (l₁ l₂ : List (Nat × α)) (t : Nat) :
    List.lookup t (l₁ ++ l₂) =
      (List.lookup t l₁).orElse (fun _ => List.lookup t l₂) := by
  induction l₁ with
  | nil => simp [List.lookup]
  | cons p tl ih =>
      obtain ⟨k, v⟩ := p
      by_cases hk : t = k
      · subst hk
        simp [List.lookup_cons]
      · have hbeq : (t == k) = false := beq_eq_false_iff_ne.mpr hk
        simp [List.lookup_cons, hbeq, ih]

theorem lookup_eq_none_of_any_false {α : Type} (l : List (Nat × α)) (k : Nat)
    (h : l.any (fun p => p.1 = k) = false) : List.lookup k l = none := by
  induction l with
  | nil => rfl
  | cons p tl ih =>
      obtain ⟨k₁, v₁⟩ := p
      simp only [List.any_cons, Bool.or_eq_false_iff,
        decide_eq_false_iff_not] at h
      have hbeq : (k == k₁) = false :=
        beq_eq_false_iff_ne.mpr (fun he => h.1 he.symm)
      simp [List.lookup_cons, hbeq, ih h.2]

theorem lookup_isSome_of_any {α : Type} (l : List (Nat × α)) (k : Nat)
    (h : l.any (fun p => p.1 = k) = true) :
    (List.lookup k l).isSome = true := by
  induction l with
  | nil => simp at h
  | cons p tl ih =>
      obtain ⟨k₁, v₁⟩ := p
      simp only [List.any_cons, Bool.or_eq_true, decide_eq_true_eq] at h
      by_cases hk : k = k₁
      · subst hk
        simp [List.lookup_cons]
      · have hbeq : (k == k₁) = false := beq_eq_false_iff_ne.mpr hk
        have htl : tl.any (fun p => p.1 = k) = true := by
          rcases h with h | h
          · exact absurd h.symm hk
          · exact h
        simp [List.lookup_cons, hbeq, ih htl]

theorem lookup_map_replace {α : Type} (m : List (Nat × α)) (k : Nat) (v : α)
    (t : Nat) :
    List.lookup t (m.map (fun p => if p.1 = k then (k, v) else p)) =
      if t = k then (List.lookup k m).map (fun _ => v)
      else List.lookup t m := by
  induction m with
  | nil => simp [List.lookup]
  | cons p tl ih =>
      obtain ⟨k₁, v₁⟩ := p
      by_cases hk1 : k₁ = k
      · subst hk1
        by_cases hk : t = k₁
        · subst hk
          simp [List.lookup_cons]
        · have hbeq : (t == k₁) = false := beq_eq_false_iff_ne.mpr hk
          simp [List.lookup_cons, hbeq, hk, ih]
      · by_cases hk : t = k₁
        · subst hk
          have hbeq : (t == k) = false := beq_eq_false_iff_ne.mpr hk1
          simp [List.lookup_cons, hk1, hbeq, Ne.symm]
        · have hbeq : (t == k₁) = false := beq_eq_false_iff_ne.mpr hk
          have hbeq2 : (k == k₁) = false :=
            beq_eq_false_iff_ne.mpr (fun he => hk1 he.symm)
          simp [List.lookup_cons, hk1, hbeq, hbeq2, ih]

theorem lookup_setKey (m : LabelMap) (k : Nat) (v : String) (t : Nat) :
    List.lookup t (setKey m k v) =
      if t = k then some v else List.lookup t m := by
  unfold setKey
  by_cases hany : m.any (fun p => p.1 = k)
  · rw [if_pos hany, lookup_map_replace]
    by_cases hk : t = k
    · obtain ⟨w, hw⟩ := Option.isSome_iff_exists.mp (lookup_isSome_of_any m k hany)
      simp [hk, hw]
    · simp [hk]
  · rw [if_neg hany, lookup_append]
    have hnone := lookup_eq_none_of_any_false m k (Bool.eq_false_iff.mpr hany)
    by_cases hk : t = k
    · subst hk
      simp [hnone, List.lookup_cons]
    · have hbeq : (t == k) = false := beq_eq_false_iff_ne.mpr hk
      cases hlt : List.lookup t m <;>
        simp [hlt, List.lookup_cons, hbeq, hk]

theorem lookup_foldl_deleteKey (L : List Nat) (m : LabelMap) (t : Nat) :
    List.lookup t (L.foldl (fun acc k => deleteKey acc k) m) =
      if t ∈ L then none else List.lookup t m := by
  induction L generalizing m with
  | nil => simp
  | cons k ks ih =>
      rw [List.foldl_cons, ih]
      have hdel : List.lookup t (deleteKey m k) =
          if t = k then none else List.lookup t m := by
        have h := lookup_filter_key m (fun x => decide (x ≠ k)) t
        by_cases hk : t = k <;> simpa [deleteKey, hk] using h
      by_cases hks : t ∈ ks
      · simp [List.mem_cons, hks]
      · rw [if_neg hks, hdel]
        by_cases hk : t = k
        · rw [if_pos hk, if_pos (by simp [List.mem_cons, hk])]
        · rw [if_neg hk, if_neg (by simp [List.mem_cons, hks, hk])]

theorem lookup_foldl_setKey (L : List Nat) (g : Nat → String) (m : LabelMap)
    (t : Nat) :
    List.lookup t (L.foldl (fun acc k => setKey acc k (g k)) m) =
      if t ∈ L then some (g t) else List.lookup t m := by
  induction L generalizing m with
  | nil => simp
  | cons k ks ih =>
      rw [List.foldl_cons, ih, lookup_setKey]
      by_cases hks : t ∈ ks
      · simp [List.mem_cons, hks]
      · by_cases hk : t = k <;> simp [List.mem_cons, hks, hk]

theorem lookup_purgeExpandedLabels (m : LabelMap) (t : Nat) :
    List.lookup t (purgeExpandedLabels m) =
      if 10 ≤ t ∧ t ≤ 99 then none else List.lookup t m := by
  unfold purgeExpandedLabels
  rw [lookup_foldl_deleteKey]
  by_cases h : 10 ≤ t ∧ t ≤ 99
  · rw [if_pos (List.mem_range'_1.mpr (by omega)), if_pos h]
  · rw [if_neg (fun hm => h (by have := List.mem_range'_1.mp hm; omega)),
      if_neg h]

theorem lookup_installLabels (maxLevel : Int) (m : LabelMap) (t : Nat) :
    List.lookup t (installLabels maxLevel m) =
      if 10 ≤ t ∧ (t : Int) ≤ maxLevel then some (ordinalLabel t)
      else List.lookup t m := by
  unfold installLabels
  rw [lookup_foldl_setKey]
  by_cases h : 10 ≤ t ∧ (t : Int) ≤ maxLevel
  · rw [if_pos (mem_tierRange.mpr h), if_pos h]
  · rw [if_neg (fun hm => h (mem_tierRange.mp hm)), if_neg h]

theorem getOrdinalSuffix_eq_residue (n : Nat) :
    getOrdinalSuffix n = n.repr ++ suffixOfResidue (n % 100) := by
  simp only [getOrdinalSuffix, suffixOfResidue, Int.natCast_mod, Nat.cast_ofNat]

/-! ### Claim theorems -/

/-- C3: for every tier `n ≥ 10` the installed label is `n` followed by its
ordinal suffix and `" Level"`, where the suffix is `"st"`/`"nd"`/`"rd"` for
last digit 1/2/3 and `"th"` otherwise, except that `n % 100 ∈ [11, 13]`
always takes `"th"`; in particular 10→"10th Level", 11→"11th Level",
12→"12th Level", 13→"13th Level", 21→"21st Level", 22→"22nd Level",
23→"23rd Level", 111→"111th Level". -/
theorem ordinal_label_spec :
    (∀ n : Nat, 10 ≤ n →
      ordinalLabel n = n.repr ++ specOrdinalSuffix n ++ " Level") ∧
    ordinalLabel 10 = "10th Level" ∧ ordinalLabel 11 = "11th Level" ∧
    ordinalLabel 12 = "12th Level" ∧ ordinalLabel 13 = "13th Level" ∧
    ordinalLabel 21 = "21st Level" ∧ ordinalLabel 22 = "22nd Level" ∧
    ordinalLabel 23 = "23rd Level" ∧ ordinalLabel 111 = "111th Level" := by
  have key : ∀ v : Nat, v < 100 → suffixOfResidue v =
      (if 11 ≤ v ∧ v ≤ 13 then "th"
       else if v % 10 = 1 then "st"
       else if v % 10 = 2 then "nd"
       else if v % 10 = 3 then "rd"
       else "th") := by decide
  refine ⟨fun n _ => ?_, by decide, by decide, by decide, by decide,
    by decide, by decide, by decide, by decide⟩
  rw [ordinalLabel, getOrdinalSuffix_eq_residue,
    key (n % 100) (Nat.mod_lt _ (by norm_num)), specOrdinalSuffix,
    Nat.mod_mod_of_dvd n (by norm_num : (10 : Nat) ∣ 100)]

/-- Witness for C3 at the concrete tier 21. -/
theorem ordinal_label_spec_witness :
    ordinalLabel 21 = (21 : Nat).repr ++ specOrdinalSuffix 21 ++ " Level" :=
  ordinal_label_spec.1 21 (by norm_num)

/-- A configuration whose only tier has `slots: 0`. -/
def zeroSlotsConfig : Config :=
  { maxSpellLevel := 10,
    levels := [(10, LevelRule.mk (JSVal.vBool true) (JSVal.vNum 20)
      (JSVal.vNum 0))] }

/-- C5 counterexample: a `slotCount` of `0` parses as the integer `0`
(so it is a parsable value `≥ 0`), yet the patched cell receives the
default `1`, not `0` — `parseInt(slots) || 1` treats `0` as falsy. -/
theorem slots_zero_counterexample :
    jsParseInt (JSVal.vNum 0) = some 0 ∧
    parseIntOr (JSVal.vNum 0) 1 = 1 ∧
    getCell (patchTable zeroSlotsConfig standardTable) 19 9 = some 1 ∧
    getCell (patchTable zeroSlotsConfig standardTable) 19 9 ≠ some 0 := by
  refine ⟨rfl, rfl, by decide, by decide⟩

/-- C5 amended: the effective slot count (`parseInt(slots) || 1`, used by the
table patcher, the form display and the form submission) equals the rule's
`slotCount` whenever that value parses as an integer `≥ 1`; the default `1`
is applied when the value is absent, unparsable, or parses to `0`. -/
theorem effective_slots_amended :
    ∀ v : JSVal,
      (∀ k : Int, jsParseInt v = some k → 1 ≤ k → parseIntOr v 1 = k) ∧
      (jsParseInt v = none → parseIntOr v 1 = 1) ∧
      (jsParseInt v = some 0 → parseIntOr v 1 = 1) := by
  intro v
  refine ⟨fun k hk h1 => ?_, fun h => ?_, fun h => ?_⟩
  · simp [parseIntOr, hk, show k ≠ 0 by omega]
  · simp [parseIntOr, h]
  · simp [parseIntOr, h]

/-- Witness for C5 (amended) at the concrete value `"3"`. -/
theorem effective_slots_amended_witness :
    parseIntOr (JSVal.vStr "3") 1 = 3 :=
  (effective_slots_amended (JSVal.vStr "3")).1 3 rfl (by norm_num)

/-- C6 counterexample: the literal string `"on"` is treated as enabled only
by the form-submission reader; the table-patching / form-display reader
(`enabled === true || enabled === "true"`) treats it as disabled. -/
theorem enabled_on_counterexample :
    isEnabledPatch (JSVal.vStr "on") = false ∧
    isEnabledForm (JSVal.vStr "on") = true := by decide

/-- C6 amended: `true` and `"true"` normalize to enabled at every reader;
`"on"` normalizes to enabled only at form submission (`_updateObject`),
while the table patcher and `getData` treat it as disabled; every other
value is disabled everywhere. -/
theorem enabled_normalization_amended :
    ∀ v : JSVal,
      (isEnabledPatch v = true ↔
        v = JSVal.vBool true ∨ v = JSVal.vStr "true") ∧
      (isEnabledForm v = true ↔
        v = JSVal.vBool true ∨ v = JSVal.vStr "on" ∨
          v = JSVal.vStr "true") := by
  intro v
  constructor <;>
    simp [isEnabledPatch, isEnabledForm, Bool.or_eq_true, beq_iff_eq,
      or_assoc]

/-- C7 counterexample: on a very first boot (`originalSpellSlotTable` still
null) with `CONFIG.DND5E.SPELL_SLOT_TABLE` absent, `applyExpandedSpellSlots`
throws (line 78 calls `.map` on the missing table) instead of skipping. -/
theorem host_not_ready_counterexample :
    applyExpandedSpellSlots DEFAULT_CONFIG uninitHost = Except.error () := rfl

/-- C7 amended: an absent `updateSource` handle is skipped silently (the
cached copy is left untouched and the call completes); an absent slot table
is tolerated only when the pristine snapshot was already captured, and when
both the snapshot and the table are absent the call throws instead of
skipping. -/
theorem apply_failure_semantics_amended :
    ∀ (cfg : Config) (s : HostState),
      (s.snapshot = none → s.table = none →
        applyExpandedSpellSlots cfg s = Except.error ()) ∧
      (∀ sn, s.snapshot = some sn →
        applyExpandedSpellSlots cfg s = Except.ok (applyCore cfg s sn)) ∧
      (∀ t, s.snapshot = none → s.table = some t →
        applyExpandedSpellSlots cfg s = Except.ok (applyCore cfg s t)) ∧
      (s.hasUpdateSource = false →
        ∀ s', applyExpandedSpellSlots cfg s = Except.ok s' →
          s'.cachedTable = s.cachedTable) := by
  intro cfg s
  refine ⟨fun h1 h2 => ?_, fun sn hsn => ?_, fun t h1 h2 => ?_,
    fun hu s' hok => ?_⟩
  · simp [applyExpandedSpellSlots, h1, h2]
  · simp [applyExpandedSpellSlots, hsn]
  · simp [applyExpandedSpellSlots, h1, h2]
  · cases hsn : s.snapshot with
    | some sn =>
        simp only [applyExpandedSpellSlots, hsn, Except.ok.injEq] at hok
        subst hok
        simp [applyCore, hu]
    | none =>
        cases htb : s.table with
        | some t =>
            simp only [applyExpandedSpellSlots, hsn, htb,
              Except.ok.injEq] at hok
            subst hok
            simp [applyCore, hu]
        | none => simp [applyExpandedSpellSlots, hsn, htb] at hok

/-- Witness for C7 (amended): with the table present and no snapshot, the
call completes and the absent `updateSource` leaves the cached copy alone. -/
theorem apply_failure_semantics_amended_witness :
    applyExpandedSpellSlots DEFAULT_CONFIG emptyHost =
      Except.ok (applyCore DEFAULT_CONFIG emptyHost []) :=
  (apply_failure_semantics_amended DEFAULT_CONFIG emptyHost).2.2.1 [] rfl rfl

/-- C4: `removeTier` is a no-op for `tier ≤ 10`; for `tier > 10` it deletes
exactly that tier's rule, decrements `maxSpellLevel` exactly when the removed
tier equals it, and leaves every other tier's rule in place unrenumbered. -/
theorem removeLevel_spec :
    ∀ (cfg : Config) (level : Int),
      (level ≤ 10 → removeLevel cfg level = cfg) ∧
      (10 < level →
        (removeLevel cfg level).maxSpellLevel =
          (if level = cfg.maxSpellLevel then cfg.maxSpellLevel - 1
           else cfg.maxSpellLevel) ∧
        ∀ t : Nat, lookupLevel (removeLevel cfg level).levels t =
          if (t : Int) = level then none else lookupLevel cfg.levels t) := by
  intro cfg level
  constructor
  · intro h
    simp [removeLevel, h]
  · intro h
    have hn : ¬ level ≤ 10 := by omega
    have hlev : (removeLevel cfg level).levels =
        cfg.levels.filter (fun p => decide ((p.1 : Int) ≠ level)) := by
      by_cases hm : level = cfg.maxSpellLevel
      · subst hm
        simp [removeLevel, hn]
      · simp [removeLevel, hn, hm]
    refine ⟨?_, ?_⟩
    · by_cases hm : level = cfg.maxSpellLevel
      · subst hm
        simp [removeLevel, hn]
      · simp [removeLevel, hn, hm]
    · intro t
      unfold lookupLevel
      rw [hlev]
      have hf : List.lookup t
          (cfg.levels.filter (fun p => decide ((p.1 : Int) ≠ level))) =
          if decide ((t : Int) ≠ level) then List.lookup t cfg.levels
          else none :=
        lookup_filter_key cfg.levels (fun x => decide ((x : Int) ≠ level)) t
      rw [hf]
      by_cases ht : (t : Int) = level
      · simp [ht]
      · simp [ht]

/-- Witness for C4: removing tier 5 is a no-op, and removing tier 11 from
the default configuration deletes exactly the tier-11 rule. -/
theorem removeLevel_spec_witness :
    removeLevel DEFAULT_CONFIG 5 = DEFAULT_CONFIG ∧
    lookupLevel (removeLevel DEFAULT_CONFIG 11).levels 11 = none :=
  ⟨(removeLevel_spec DEFAULT_CONFIG 5).1 (by norm_num),
   by
    have h := ((removeLevel_spec DEFAULT_CONFIG 11).2 (by norm_num)).2 11
    simpa using h⟩

theorem lookup_map_pair_isSome {α : Type} (L : List Nat) (g : Nat → α)
    (t : Nat) :
    (List.lookup t (L.map (fun k => (k, g k)))).isSome = true ↔ t ∈ L := by
  induction L with
  | nil => simp [List.lookup]
  | cons k ks ih =>
      by_cases hk : t = k
      · subst hk
        simp [List.lookup_cons]
      · have hbeq : (t == k) = false := beq_eq_false_iff_ne.mpr hk
        simp [List.lookup_cons, hbeq, ih, List.mem_cons, hk]

/-- The rule `_updateObject` stores for a tier, with all three fields
already normalized (a real boolean, two parsed integers). -/
def formRule (fd : FormData) (level : Nat) : LevelRule :=
  { enabled := JSVal.vBool (isEnabledForm (fd.enabled level)),
    characterLevel := JSVal.vNum (parseIntOr (fd.characterLevel level) 20),
    slots := JSVal.vNum (parseIntOr (fd.slots level) 1) }

/-- A persisted value whose `levels` lacks tier 11 although
`maxSpellLevel = 12` — legal input for the shallow merge. -/
def gapStored : StoredConfig :=
  { maxSpellLevel := some 12,
    levels := some [(10, LevelRule.mk (JSVal.vBool true) (JSVal.vNum 19)
      (JSVal.vNum 1))] }

/-- C8 counterexample: `getConfig` is a shallow top-level merge, so a
persisted `levels` that lacks tier 11 survives the `getConfig`
normalization pass unrepaired even though `maxSpellLevel = 12` — the
configuration does not contain a rule for every tier in
`[10, maxSpellLevel]` after `getConfig`. -/
theorem getConfig_gap_counterexample :
    (getConfig (some gapStored)).maxSpellLevel = 12 ∧
    lookupLevel (getConfig (some gapStored)).levels 11 = none := by decide

/-- C8 amended: only the form-submission pass (`_updateObject`) guarantees
that `levels` holds a rule for exactly the tiers in `[10, maxSpellLevel]`;
`getConfig` (a shallow merge that takes a persisted `levels` wholesale) and
the add/remove-tier operations do not restore that shape. -/
theorem updateObject_exact_range :
    ∀ (cfg : Config) (fd : FormData) (t : Nat),
      (lookupLevel (updateObjectConfig cfg fd).levels t).isSome = true ↔
        10 ≤ t ∧ (t : Int) ≤ (updateObjectConfig cfg fd).maxSpellLevel := by
  intro cfg fd t
  have h : (lookupLevel (updateObjectConfig cfg fd).levels t).isSome = true ↔
      t ∈ tierRange cfg.maxSpellLevel :=
    lookup_map_pair_isSome (tierRange cfg.maxSpellLevel) (formRule fd) t
  exact h.trans mem_tierRange

/-- C9: for any `maxLevel ≤ 99`, `updateSpellLevelsConfig` leaves, among the
expanded tiers 10..99, labels for exactly the tiers in `[10, maxLevel]`
(both in `spellLevels` and in the localization table), while a stale label
for a tier `≥ 100` is never removed. -/
theorem updateSpellLevels_range :
    ∀ (maxLevel : Int) (m sl : LabelMap) (t : Nat) (m' : LabelMap),
      maxLevel ≤ 99 →
      (updateSpellLevelsConfig maxLevel m (some sl)).2 = some m' →
      (10 ≤ t → t ≤ 99 →
        (List.lookup t (updateSpellLevelsConfig maxLevel m (some sl)).1 =
          if (t : Int) ≤ maxLevel then some (ordinalLabel t) else none) ∧
        (List.lookup t m' =
          if (t : Int) ≤ maxLevel then some (ordinalLabel t) else none)) ∧
      (100 ≤ t →
        List.lookup t (updateSpellLevelsConfig maxLevel m (some sl)).1 =
          List.lookup t m ∧
        List.lookup t m' = List.lookup t sl) := by
  intro maxLevel m sl t m' hmax hm'
  have hm'eq : m' = installLabels maxLevel (purgeExpandedLabels sl) := by
    simpa [updateSpellLevelsConfig] using hm'.symm
  have h1 : (updateSpellLevelsConfig maxLevel m (some sl)).1 =
      installLabels maxLevel (purgeExpandedLabels m) := rfl
  subst hm'eq
  rw [h1]
  constructor
  · intro h10 h99
    constructor <;>
      · rw [lookup_installLabels, lookup_purgeExpandedLabels]
        by_cases hle : (t : Int) ≤ maxLevel
        · rw [if_pos ⟨h10, hle⟩, if_pos hle]
        · rw [if_neg (fun hc => hle hc.2), if_pos ⟨h10, h99⟩, if_neg hle]
  · intro h100
    have hni : ¬(10 ≤ t ∧ (t : Int) ≤ maxLevel) := by
      rintro ⟨-, hle⟩
      omega
    have hnp : ¬(10 ≤ t ∧ t ≤ 99) := by omega
    constructor <;>
      rw [lookup_installLabels, lookup_purgeExpandedLabels, if_neg hni,
        if_neg hnp]

/-- Witness for C9: purging at `maxLevel = 12` removes a stale tier-15
label but keeps a stale tier-120 label. -/
theorem updateSpellLevels_range_witness :
    List.lookup 15
      (updateSpellLevelsConfig 12 [(15, "old"), (120, "huge")]
        (some [])).1 = none ∧
    List.lookup 120
      (updateSpellLevelsConfig 12 [(15, "old"), (120, "huge")]
        (some [])).1 = some "huge" := by
  have h15 := (updateSpellLevels_range 12 [(15, "old"), (120, "huge")] []
    15 (installLabels 12 (purgeExpandedLabels [])) (by norm_num) rfl).1
    (by norm_num) (by norm_num)
  have h120 := (updateSpellLevels_range 12 [(15, "old"), (120, "huge")] []
    120 (installLabels 12 (purgeExpandedLabels [])) (by norm_num) rfl).2
    (by norm_num)
  refine ⟨?_, ?_⟩
  · rw [h15.1]
    decide
  · rw [h120.1]
    decide

/-- C10: the patch loop never creates a row — the table keeps its length,
rows outside the written cells keep their pristine cells, and the only other
change is the zero-padding a row receives up to a written column. -/
theorem patchTable_safety :
    ∀ (cfg : Config) (table : List (List Int)),
      (patchTable cfg table).length = table.length ∧
      ∀ i j : Nat, writesCell cfg i j = false →
        getCell (patchTable cfg table) i j = getCell table i j ∨
        (getCell table i j = none ∧
          getCell (patchTable cfg table) i j = some 0) := by
  intro cfg table
  exact ⟨patchTable_length cfg table,
    fun i j h => patchTable_cellR cfg table h⟩

/-- Witness for C10: with the default configuration, cell (char level 1,
tier 10) is unwritten and survives the patch unchanged. -/
theorem patchTable_safety_witness :
    writesCell DEFAULT_CONFIG 0 9 = false ∧
    (getCell (patchTable DEFAULT_CONFIG standardTable) 0 9 =
        getCell standardTable 0 9 ∨
      (getCell standardTable 0 9 = none ∧
        getCell (patchTable DEFAULT_CONFIG standardTable) 0 9 = some 0)) :=
  ⟨by decide, (patchTable_safety DEFAULT_CONFIG standardTable).2 0 9
    (by decide)⟩

/-- C1: a second `applyExpandedSpellSlots` with the same configuration (the
pristine snapshot unchanged) completes and leaves the slot table (and the
snapshot) exactly as after the first call, because each call starts by
resetting the live table to a copy of the snapshot. -/
theorem apply_idempotent :
    ∀ (cfg : Config) (s s' : HostState),
      applyExpandedSpellSlots cfg s = Except.ok s' →
      ∃ s'', applyExpandedSpellSlots cfg s' = Except.ok s'' ∧
        s''.table = s'.table ∧ s''.snapshot = s'.snapshot := by
  intro cfg s s' h
  cases hsn : s.snapshot with
  | some sn =>
      simp only [applyExpandedSpellSlots, hsn, Except.ok.injEq] at h
      subst h
      exact ⟨applyCore cfg (applyCore cfg s sn) sn, rfl, rfl, rfl⟩
  | none =>
      cases htb : s.table with
      | some t =>
          simp only [applyExpandedSpellSlots, hsn, htb,
            Except.ok.injEq] at h
          subst h
          exact ⟨applyCore cfg (applyCore cfg s t) t, rfl, rfl, rfl⟩
      | none => simp [applyExpandedSpellSlots, hsn, htb] at h

/-- Witness for C1 at a concrete host state. -/
theorem apply_idempotent_witness :
    ∃ s'', applyExpandedSpellSlots DEFAULT_CONFIG emptyHostApplied =
      Except.ok s'' ∧ s''.table = emptyHostApplied.table ∧
      s''.snapshot = emptyHostApplied.snapshot :=
  apply_idempotent DEFAULT_CONFIG emptyHost emptyHostApplied rfl

/-- C2: on a fresh install `getConfig` yields `maxSpellLevel = 12` with
tier 10 `{enabled, characterLevel 19, slots 1}` and tiers 11-12
`{enabled, characterLevel 20, slots 1}`; applying that configuration to any
pristine 20-row table sets exactly `table[18][9] = table[19][9] =
table[19][10] = table[19][11] = 1` and leaves the rows for character levels
1-18 unchanged at tiers 10-12. -/
theorem default_scenario :
    (getConfig (some freshStored)).maxSpellLevel = 12 ∧
    lookupLevel (getConfig (some freshStored)).levels 10 =
      some (LevelRule.mk (JSVal.vBool true) (JSVal.vNum 19)
        (JSVal.vNum 1)) ∧
    lookupLevel (getConfig (some freshStored)).levels 11 =
      some (LevelRule.mk (JSVal.vBool true) (JSVal.vNum 20)
        (JSVal.vNum 1)) ∧
    lookupLevel (getConfig (some freshStored)).levels 12 =
      some (LevelRule.mk (JSVal.vBool true) (JSVal.vNum 20)
        (JSVal.vNum 1)) ∧
    ∀ table : List (List Int), table.length = 20 →
      getCell (patchTable (getConfig (some freshStored)) table) 18 9 =
        some 1 ∧
      getCell (patchTable (getConfig (some freshStored)) table) 19 9 =
        some 1 ∧
      getCell (patchTable (getConfig (some freshStored)) table) 19 10 =
        some 1 ∧
      getCell (patchTable (getConfig (some freshStored)) table) 19 11 =
        some 1 ∧
      ∀ i j : Nat, i < 18 → (j = 9 ∨ j = 10 ∨ j = 11) →
        getCell (patchTable (getConfig (some freshStored)) table) i j =
          getCell table i j := by
  refine ⟨rfl, rfl, rfl, rfl, fun table hlen => ?_⟩
  have e : patchTable (getConfig (some freshStored)) table =
      patchRow (patchRow (patchRow (patchRow table 19 9 1) 20 9 1) 20 10 1)
        20 11 1 := rfl
  rw [e]
  have l1 : (patchRow table 19 9 1).length = 20 := by
    rw [patchRow_length, hlen]
  have l2 : (patchRow (patchRow table 19 9 1) 20 9 1).length = 20 := by
    rw [patchRow_length, l1]
  have l3 : (patchRow (patchRow (patchRow table 19 9 1) 20 9 1)
      20 10 1).length = 20 := by
    rw [patchRow_length, l2]
  refine ⟨?_, ?_, ?_, ?_, ?_⟩
  · rw [patchRow_getCell_row_ne _ 20 11 1 18 (by decide) 9,
      patchRow_getCell_row_ne _ 20 10 1 18 (by decide) 9,
      patchRow_getCell_row_ne _ 20 9 1 18 (by decide) 9]
    exact patchRow_getCell_self table 19 9 1 18 (by decide) (by omega)
  · have c2 : getCell (patchRow (patchRow table 19 9 1) 20 9 1) 19 9 =
        some 1 :=
      patchRow_getCell_self _ 20 9 1 19 (by decide) (by omega)
    have c3 := patchRow_getCell_cellR
      (patchRow (patchRow table 19 9 1) 20 9 1) 20 10 1 19 9
      (Or.inr (by decide))
    rw [c2] at c3
    have c3' := cellR_some c3
    have c4 := patchRow_getCell_cellR
      (patchRow (patchRow (patchRow table 19 9 1) 20 9 1) 20 10 1)
      20 11 1 19 9 (Or.inr (by decide))
    rw [c3'] at c4
    exact cellR_some c4
  · have c3 : getCell
        (patchRow (patchRow (patchRow table 19 9 1) 20 9 1) 20 10 1)
        19 10 = some 1 :=
      patchRow_getCell_self _ 20 10 1 19 (by decide) (by omega)
    have c4 := patchRow_getCell_cellR
      (patchRow (patchRow (patchRow table 19 9 1) 20 9 1) 20 10 1)
      20 11 1 19 10 (Or.inr (by decide))
    rw [c3] at c4
    exact cellR_some c4
  · exact patchRow_getCell_self _ 20 11 1 19 (by decide) (by omega)
  · intro i j hi hj
    rw [patchRow_getCell_row_ne _ 20 11 1 i (by omega) j,
      patchRow_getCell_row_ne _ 20 10 1 i (by omega) j,
      patchRow_getCell_row_ne _ 20 9 1 i (by omega) j,
      patchRow_getCell_row_ne _ 19 9 1 i (by omega) j]

/-- Witness for C2 at the standard 5e table. -/
theorem default_scenario_witness :
    getCell (patchTable (getConfig (some freshStored)) standardTable) 18 9 =
      some 1 ∧
    getCell (patchTable (getConfig (some freshStored)) standardTable) 0 9 =
      getCell standardTable 0 9 := by
  have h := default_scenario.2.2.2.2 standardTable (by decide)
  exact ⟨h.1, h.2.2.2.2 0 9 (by decide) (by decide)⟩

end ExpandedSpellSlots
